import Mathlib

/-!
Verification of the AUU status-reporting backend (`src/server.js`).

The server is an Express application: an SQLite-backed entry store
(`auu_queries` table keyed by `fqdn`), a proxy executor
(`POST /api/execute_query`) issuing one outbound HTTPS GET, and a range
filter over the returned JSON array.  We embed the relevant handlers as
pure Lean functions: request bodies become records of optional strings,
the SQLite table becomes a list of rows, the asynchronous transport
becomes an explicit outcome value, and platform primitives (`JSON.parse`,
`new Date(s).getTime()`) become function parameters, since their code is
not part of the repository.
-/

namespace AUU

/-- A JavaScript number as it matters here: either NaN or an integer
(epoch-millisecond timestamps and timeouts are integral). Any comparison
involving NaN is false, as in JS. -/
inductive JsNum where
  | nan
  | int (n : Int)
deriving DecidableEq

/-- JS `a >= b` on numbers: false whenever either side is NaN. -/
def jsGe : JsNum → JsNum → Bool
  | JsNum.int a, JsNum.int b => b ≤ a
  | _, _ => false

/-- JS `a <= b` on numbers: false whenever either side is NaN. -/
def jsLe : JsNum → JsNum → Bool
  | JsNum.int a, JsNum.int b => a ≤ b
  | _, _ => false

/-- JS multiplication on numbers; NaN is absorbing. -/
def jsMul : JsNum → JsNum → JsNum
  | JsNum.int a, JsNum.int b => JsNum.int (a * b)
  | _, _ => JsNum.nan

/-- A JSON value (the possible results of `JSON.parse` and the bodies the
server sends with `res.json`). -/
inductive Json where
  | null
  | bool (b : Bool)
  | num (v : JsNum)
  | str (s : String)
  | arr (elems : List Json)
  | obj (fields : List (String × Json))

/-- Total JS property lookup `o.k` used by the specification's reference
definition: `some v` when `o` is an object with field `k`, otherwise
`undefined` (here `none`). -/
def getField (v : Json) (k : String) : Option Json :=
  match v with
  | Json.obj fields => fields.lookup k
  | _ => none

/-- JS property access `o.k` as the program performs it: on `null` it
throws a TypeError (modelled as `Except.error`); on an object it yields
the field or `undefined`; primitives and arrays autobox and yield
`undefined`. -/
def getFieldE (v : Json) (k : String) : Except Unit (Option Json) :=
  match v with
  | Json.null => Except.error ()
  | Json.obj fields => Except.ok (fields.lookup k)
  | _ => Except.ok none

/-- Truthiness of an optional string field of a JSON request body:
`undefined`/absent and the empty string are falsy. -/
def truthyS : Option String → Bool
  | none => false
  | some s => s ≠ ""

/-- Rendering of an optional string in a JS template literal:
`undefined` prints as the word `undefined`. -/
def jsShow : Option String → String
  | none => "undefined"
  | some s => s

/-- UTF-8 bytes of a Unicode code point (models Node `Buffer.from` on text). -/
def codeBytes (n : Nat) : List Nat :=
  if n < 128 then [n]
  else if n < 2048 then [192 + n / 64, 128 + n % 64]
  else if n < 65536 then [224 + n / 4096, 128 + n / 64 % 64, 128 + n % 64]
  else [240 + n / 262144, 128 + n / 4096 % 64, 128 + n / 64 % 64, 128 + n % 64]

/-- UTF-8 byte sequence of a string. -/
def utf8Bytes (s : String) : List Nat :=
  s.data.flatMap (fun c => codeBytes c.toNat)

/-- The base64 alphabet. -/
def b64Alphabet : List Char :=
  "ABCDEFGHIJKLMNOPQRSTUVWXYZabcdefghijklmnopqrstuvwxyz0123456789+/".data

/-- Character for a 6-bit group. -/
def b64Char (n : Nat) : Char := b64Alphabet.getD n 'A'

/-- Standard base64 of a byte list (models `Buffer.prototype.toString` with
encoding base64). -/
def base64Encode : List Nat → String
  | [] => ""
  | [a] => String.mk [b64Char (a / 4), b64Char (a % 4 * 16)] ++ "=="
  | [a, b] =>
      String.mk [b64Char (a / 4), b64Char (a % 4 * 16 + b / 16), b64Char (b % 16 * 4)] ++ "="
  | a :: b :: c :: rest =>
      String.mk [b64Char (a / 4), b64Char (a % 4 * 16 + b / 16),
        b64Char (b % 16 * 4 + c / 64), b64Char (c % 64)] ++ base64Encode rest

/-- The value of the `Authorization` header built at `server.js:193`:
`Basic base64(user_mail:user_password)` over the UTF-8 bytes. -/
def basicAuthValue (user_mail user_password : String) : String :=
  "Basic " ++ base64Encode (utf8Bytes (user_mail ++ ":" ++ user_password))

/-- The `timeout` field of the request body as JSON delivers it: absent, a
number, or a string. -/
inductive TimeoutField where
  | absent
  | num (n : Int)
  | str (s : String)
deriving DecidableEq

/-- JS truthiness of the `timeout` field (`0`, the empty string and
`undefined` are falsy). -/
def timeoutTruthy : TimeoutField → Bool
  | TimeoutField.absent => false
  | TimeoutField.num n => n ≠ 0
  | TimeoutField.str s => s ≠ ""

/-- JS `Number` coercion for the simple decimal strings that can reach the
multiplication in `(timeout || 30) * 1000`; models the host coercion:
whitespace-free decimal integers convert, anything else is NaN. -/
def strToNum (s : String) : JsNum :=
  if s.data ≠ [] ∧ s.data.all (fun c => c.isDigit) then
    JsNum.int (s.toNat!)
  else if s.data ≠ [] ∧ s.data.head? = some '-' ∧ s.data.tail ≠ [] ∧
      s.data.tail.all (fun c => c.isDigit) then
    JsNum.int (-(String.mk s.data.tail).toNat!)
  else JsNum.nan

/-- Numeric value of a truthy `timeout` field under JS coercion. -/
def timeoutNum : TimeoutField → JsNum
  | TimeoutField.absent => JsNum.nan
  | TimeoutField.num n => JsNum.int n
  | TimeoutField.str s => strToNum s

/-- `(timeout || 30) * 1000` from `server.js:196`. -/
def timeoutMsOf (t : TimeoutField) : JsNum :=
  if timeoutTruthy t then jsMul (timeoutNum t) (JsNum.int 1000)
  else JsNum.int 30000

/-- The options object passed to `https.request` (`server.js:188`-`197`);
headers flattened into named fields. -/
structure RequestOptions where
  hostname : String
  path : String
  method : String
  authorization : String
  accept : String
  timeoutMs : JsNum
deriving DecidableEq

/-- Construction of the options object from the validated body fields. -/
def buildOptions (fqdn parameters user_mail user_password : String)
    (mimeType : Option String) (timeout : TimeoutField) : RequestOptions :=
  { hostname := fqdn
    path := parameters
    method := "GET"
    authorization := basicAuthValue user_mail user_password
    accept := if truthyS mimeType then jsShow mimeType else "application/json"
    timeoutMs := timeoutMsOf timeout }

/-- The URL the Node https module contacts for an options object:
scheme https, the given hostname, the given path. -/
def targetUrl (o : RequestOptions) : String :=
  "https://" ++ o.hostname ++ o.path

/-- Rendering of a `JsNum` by `JSON.stringify` (NaN serialises as null). -/
def renderNum : JsNum → String
  | JsNum.nan => "null"
  | JsNum.int n => toString n

/-- `JSON.stringify(options, null, 2)` on the flat options object, as logged
at `server.js:199` and `205`. -/
def stringifyOptions (o : RequestOptions) : String :=
  "\x7b\n  \"hostname\": \"" ++ o.hostname ++ "\",\n  \"path\": \"" ++ o.path ++
  "\",\n  \"method\": \"" ++ o.method ++
  "\",\n  \"headers\": \x7b\n    \"Authorization\": \"" ++ o.authorization ++
  "\",\n    \"Accept\": \"" ++ o.accept ++ "\"\n  \x7d,\n  \"timeout\": " ++
  renderNum o.timeoutMs ++ "\n\x7d"

/-- The safe copy made at `server.js:201`-`204`: same options with the
Authorization header replaced by the redaction marker. -/
def redactOptions (o : RequestOptions) : RequestOptions :=
  { o with authorization := "[REDACTED]" }

mutual

/-- `JSON.stringify(v, null, 2)` modelled compactly: the exact whitespace of
the pretty form is immaterial to every property below, the rendered field
names and string contents are faithful. -/
def renderJson : Json → String
  | Json.null => "null"
  | Json.bool true => "true"
  | Json.bool false => "false"
  | Json.num v => renderNum v
  | Json.str s => "\"" ++ s ++ "\""
  | Json.arr es => "[" ++ renderArr es ++ "]"
  | Json.obj fs => "\x7b" ++ renderObj fs ++ "\x7d"

/-- Comma-separated rendering of array elements. -/
def renderArr : List Json → String
  | [] => ""
  | [e] => renderJson e
  | e :: es => renderJson e ++ "," ++ renderArr es

/-- Comma-separated rendering of object members. -/
def renderObj : List (String × Json) → String
  | [] => ""
  | [(k, v)] => "\"" ++ k ++ "\":" ++ renderJson v
  | (k, v) :: fs => "\"" ++ k ++ "\":" ++ renderJson v ++ "," ++ renderObj fs

end

/-- The body of a `POST /api/execute_query` request (`server.js:160`): the
string-valued Entry fields plus `mimeType` and `timeout`. -/
structure ExecBody where
  fqdn : Option String
  user_mail : Option String
  user_password : Option String
  start_date : Option String
  end_date : Option String
  parameters : Option String
  comments : Option String
  mimeType : Option String
  timeout : TimeoutField

/-- Validation at `server.js:163`: all four required fields truthy. -/
def validExec (b : ExecBody) : Bool :=
  truthyS b.fqdn && truthyS b.user_mail && truthyS b.user_password &&
    truthyS b.parameters

/-- What the outbound https request came to: the response completed with a
status code, header block and body chunks; the request errored; or the
timeout fired before completion. -/
inductive TransportOutcome where
  | success (statusCode : Nat) (headersJson : String) (chunks : List String)
  | error (msg : String)
  | timeout

/-- An HTTP response the handler sends: status code and JSON body. -/
structure HttpResponse where
  status : Nat
  body : Json

/-- Everything observable the handler produced: the log lines appended to
`server.log`, the outbound requests issued, the response sent to the
client, and whether the in-flight request was destroyed. -/
structure ExecOutput where
  logs : List String
  requests : List RequestOptions
  response : HttpResponse
  aborted : Bool

/-- The filter callback of `server.js:225`-`228`:
`const ts = entry.timestamp_epoch_ms` (which throws on a `null` element),
then `typeof ts === number && ts >= startEpoch && ts <= endEpoch`. -/
def tsKeep (startEpoch endEpoch : JsNum) (entry : Json) : Except Unit Bool :=
  match getFieldE entry "timestamp_epoch_ms" with
  | Except.error e => Except.error e
  | Except.ok (some (Json.num ts)) =>
      Except.ok (jsGe ts startEpoch && jsLe ts endEpoch)
  | Except.ok _ => Except.ok false

/-- `Array.prototype.filter` with a callback that can throw: elements are
visited left to right and the first exception aborts the traversal. -/
def filterM (p : Json → Except Unit Bool) : List Json → Except Unit (List Json)
  | [] => Except.ok []
  | x :: xs =>
      match p x with
      | Except.error e => Except.error e
      | Except.ok b =>
          match filterM p xs with
          | Except.error e => Except.error e
          | Except.ok ys => Except.ok (if b then x :: ys else ys)

/-- The range filter applied at `server.js:220`-`229`: when the parsed value
is an array and both bounds are truthy, keep the elements whose
`timestamp_epoch_ms` is a number within the parsed epoch bounds; otherwise
the value passes through unchanged.  A `null` element under an active
filter throws a TypeError (`Except.error`), which the caller's catch turns
into the 500 `error`/`raw` response.  `dateParse` models
`new Date(s).getTime()`. -/
def filterByRange (dateParse : String → JsNum) (value : Json)
    (start_date end_date : Option String) : Except Unit Json :=
  match value with
  | Json.arr elems =>
      if truthyS start_date && truthyS end_date then
        match filterM (tsKeep (dateParse (jsShow start_date))
            (dateParse (jsShow end_date))) elems with
        | Except.error e => Except.error e
        | Except.ok kept => Except.ok (Json.arr kept)
      else Except.ok (Json.arr elems)
  | v => Except.ok v

/-- The `POST /api/execute_query` handler (`server.js:157`-`253`) as a pure
function.  `jsonParse` models `JSON.parse` (none = exception); `dateParse`
models `new Date(s).getTime()`; `saveErr` is the outcome of the best-effort
pre-execution upsert (`some msg` = store error); `outcome` the transport
outcome of the single outbound request. -/
def executeQueryHandler (jsonParse : String → Option Json)
    (dateParse : String → JsNum) (b : ExecBody) (saveErr : Option String)
    (outcome : TransportOutcome) : ExecOutput :=
  let recvLog := "Received query request: FQDN=" ++ jsShow b.fqdn ++
    ", User Mail=" ++ jsShow b.user_mail ++ ", Parameters=" ++
    jsShow b.parameters
  if validExec b then
    let f := jsShow b.fqdn
    let saveLog := match saveErr with
      | some m => "Database save error before execution for FQDN " ++ f ++
          ": " ++ m
      | none => "Query data saved/updated before execution for FQDN " ++ f
    let options := buildOptions f (jsShow b.parameters) (jsShow b.user_mail)
      (jsShow b.user_password) b.mimeType b.timeout
    let optLogRaw := "API Request Options: " ++ stringifyOptions options
    let optLogSafe := "API Request Options: " ++
      stringifyOptions (redactOptions options)
    let baseLogs := [recvLog, saveLog, optLogRaw, optLogSafe]
    match outcome with
    | TransportOutcome.timeout =>
        { logs := baseLogs ++ ["API request timed out"]
          requests := [options]
          response := ⟨408, Json.obj [("error", Json.str "Request timeout")]⟩
          aborted := true }
    | TransportOutcome.error msg =>
        { logs := baseLogs ++ ["API request failed: Error: " ++ msg]
          requests := [options]
          response := ⟨500, Json.obj [("error", Json.str msg)]⟩
          aborted := false }
    | TransportOutcome.success statusCode headersJson chunks =>
        let data := String.join chunks
        let rcvLogs := ["API Response Status: " ++ toString statusCode,
          "API Response Headers: " ++ headersJson] ++
          chunks.map (fun c => "Received chunk: " ++ c)
        match jsonParse data with
        | some parsed =>
            match filterByRange dateParse parsed b.start_date b.end_date with
            | Except.ok filtered =>
                { logs := baseLogs ++ rcvLogs ++
                    ["Filtered API Response (pretty):\n" ++
                      renderJson filtered]
                  requests := [options]
                  response := ⟨200, filtered⟩
                  aborted := false }
            | Except.error _ =>
                { logs := baseLogs ++ rcvLogs ++
                    ["Failed to parse API response: TypeError",
                     "Full API Response (raw): " ++ data]
                  requests := [options]
                  response := ⟨500, Json.obj [("error",
                    Json.str "Failed to parse API response"),
                    ("raw", Json.str data)]⟩
                  aborted := false }
        | none =>
            { logs := baseLogs ++ rcvLogs ++
                ["Failed to parse API response: SyntaxError",
                 "Full API Response (raw): " ++ data]
              requests := [options]
              response := ⟨500, Json.obj [("error",
                Json.str "Failed to parse API response"),
                ("raw", Json.str data)]⟩
              aborted := false }
  else
    { logs := [recvLog]
      requests := []
      response := ⟨400, Json.obj [("error", Json.str "Missing required fields")]⟩
      aborted := false }

/-- A row of the `auu_queries` table (`server.js:44`-`54`).  Non-key columns
are nullable; timestamps are modelled as naturals (`CURRENT_TIMESTAMP` at
the moment of the statement). -/
structure Row where
  fqdn : String
  user_mail : Option String
  user_password : Option String
  start_date : Option String
  end_date : Option String
  parameters : Option String
  comments : Option String
  created_at : Nat
  last_updated : Nat
deriving DecidableEq

/-- The body of a `POST /api/save_query_data` request (`server.js:109`). -/
structure SaveBody where
  fqdn : Option String
  user_mail : Option String
  user_password : Option String
  start_date : Option String
  end_date : Option String
  parameters : Option String
  comments : Option String
deriving DecidableEq

/-- The fresh row inserted when the key is absent: `created_at` and
`last_updated` both default to the current timestamp. -/
def newRow (b : SaveBody) (now : Nat) : Row :=
  { fqdn := jsShow b.fqdn
    user_mail := b.user_mail
    user_password := b.user_password
    start_date := b.start_date
    end_date := b.end_date
    parameters := b.parameters
    comments := b.comments
    created_at := now
    last_updated := now }

/-- The `ON CONFLICT(fqdn) DO UPDATE` branch (`server.js:119`-`126`): every
column except the key and `created_at` is overwritten, `last_updated` is
refreshed. -/
def overwriteRow (b : SaveBody) (now : Nat) (r : Row) : Row :=
  { r with
    user_mail := b.user_mail
    user_password := b.user_password
    start_date := b.start_date
    end_date := b.end_date
    parameters := b.parameters
    comments := b.comments
    last_updated := now }

/-- The single-row upsert statement of `server.js:116`-`127`: update in
place when a row with the same `fqdn` exists, otherwise insert. -/
def upsertRows (rows : List Row) (b : SaveBody) (now : Nat) : List Row :=
  if rows.any (fun r => r.fqdn = jsShow b.fqdn) then
    rows.map (fun r => if r.fqdn = jsShow b.fqdn then overwriteRow b now r else r)
  else rows ++ [newRow b now]

/-- The `POST /api/save_query_data` handler (`server.js:105`-`137`): `400`
when `fqdn` is falsy, otherwise run the upsert; `dbErr` models an SQLite
error reported to the callback. -/
def saveQueryData (rows : List Row) (b : SaveBody) (now : Nat)
    (dbErr : Option String) : HttpResponse × List Row :=
  if truthyS b.fqdn then
    match dbErr with
    | some m => (⟨500, Json.obj [("error", Json.str m)]⟩, rows)
    | none =>
        (⟨200, Json.obj [("message", Json.str "Query data saved successfully")]⟩,
         upsertRows rows b now)
  else (⟨400, Json.obj [("error", Json.str "FQDN is required")]⟩, rows)

/-- The `DELETE /api/query_data/:fqdn` handler (`server.js:140`-`154`):
delete all rows matching the key; `this.changes === 0` yields `404`. -/
def deleteQueryData (rows : List Row) (fqdn : String) :
    HttpResponse × List Row :=
  let remaining := rows.filter (fun r => r.fqdn ≠ fqdn)
  if rows.length - remaining.length = 0 then
    (⟨404, Json.obj [("error", Json.str "FQDN not found")]⟩, rows)
  else
    (⟨200, Json.obj [("message", Json.str "FQDN entry deleted successfully")]⟩,
     remaining)

/-- `SELECT *` JSON serialisation of a stored row, nullable columns as JSON
null and timestamps as their SQLite text rendering. -/
def rowToJson (r : Row) : Json :=
  Json.obj [("fqdn", Json.str r.fqdn),
    ("user_mail", match r.user_mail with | some s => Json.str s | none => Json.null),
    ("user_password", match r.user_password with | some s => Json.str s | none => Json.null),
    ("start_date", match r.start_date with | some s => Json.str s | none => Json.null),
    ("end_date", match r.end_date with | some s => Json.str s | none => Json.null),
    ("parameters", match r.parameters with | some s => Json.str s | none => Json.null),
    ("comments", match r.comments with | some s => Json.str s | none => Json.null),
    ("created_at", Json.str (toString r.created_at)),
    ("last_updated", Json.str (toString r.last_updated))]

/-- The zero-valued Entry the handler fabricates for an unknown key
(`server.js:91`-`99`). -/
def stubJson (fqdn : String) : Json :=
  Json.obj [("fqdn", Json.str fqdn),
    ("user_mail", Json.str ""),
    ("user_password", Json.str ""),
    ("start_date", Json.str ""),
    ("end_date", Json.str ""),
    ("parameters", Json.str ""),
    ("comments", Json.str "")]

/-- The `GET /api/query_data` handler (`server.js:77`-`102`): `400` for a
falsy `fqdn` query parameter, the stored row when one matches, the
zero-valued stub otherwise. -/
def getQueryData (rows : List Row) (fqdn : Option String) : HttpResponse :=
  if truthyS fqdn then
    match rows.find? (fun r => r.fqdn = jsShow fqdn) with
    | some r => ⟨200, rowToJson r⟩
    | none => ⟨200, stubJson (jsShow fqdn)⟩
  else ⟨400, Json.obj [("error", Json.str "FQDN is required")]⟩

/-- Whether a JSON value is an array (`Array.isArray`). -/
def isArray : Json → Bool
  | Json.arr _ => true
  | _ => false

/-- Elements of an array value, `[]` otherwise. -/
def elemsOf : Json → List Json
  | Json.arr es => es
  | _ => []

/-- Keep-predicate of the specification's reference definition of the range
filter: the element's `timestamp_epoch_ms` field is a number `ts` with
`start ≤ ts ≤ end` (inclusive both ends, under JS numeric comparison). -/
def specKeep (startEpoch endEpoch : JsNum) (entry : Json) : Bool :=
  match getField entry "timestamp_epoch_ms" with
  | some (Json.num (JsNum.int ts)) =>
      jsGe (JsNum.int ts) startEpoch && jsLe (JsNum.int ts) endEpoch
  | _ => false

/-- The specification's reference definition of `filterByRange` (claim C4):
if the value is not an array, or either bound is empty/absent, the value is
returned unchanged; otherwise both bounds are converted to epoch
milliseconds and exactly the elements satisfying `specKeep` are retained,
in their original relative order. -/
def filterByRangeSpec (dateParse : String → JsNum) (value : Json)
    (startDate endDate : Option String) : Json :=
  if isArray value = false ∨ truthyS startDate = false ∨ truthyS endDate = false then
    value
  else
    Json.arr ((elemsOf value).filter
      (specKeep (dateParse (jsShow startDate)) (dateParse (jsShow endDate))))

/-- Whether the character list `p` occurs at the head of `s`. -/
def leadsWith : List Char → List Char → Bool
  | [], _ => true
  | _ :: _, [] => false
  | a :: p, b :: s => a = b && leadsWith p s

/-- Whether the character list `p` occurs anywhere inside `s`. -/
def hasSubList (p : List Char) : List Char → Bool
  | [] => leadsWith p []
  | c :: rest => leadsWith p (c :: rest) || hasSubList p rest

/-- Whether `needle` is a substring of `hay`. -/
def containsStr (hay needle : String) : Bool :=
  hasSubList needle.data hay.data

/-- On any non-null element the fallible filter callback returns exactly
the specification's keep-predicate: the only divergence candidate apart
from `null`, a NaN `timestamp_epoch_ms` (which passes the `typeof` check
but fails both comparisons), is dropped by both. -/
theorem tsKeep_eq_specKeep (s e : JsNum) (entry : Json)
    (h : entry ≠ Json.null) :
    tsKeep s e entry = Except.ok (specKeep s e entry) := by
  cases entry with
  | null => exact absurd rfl h
  | bool b => rfl
  | num v => rfl
  | str t => rfl
  | arr es => rfl
  | obj fs =>
      cases hl : fs.lookup "timestamp_epoch_ms" with
      | none => simp [tsKeep, specKeep, getFieldE, getField, hl]
      | some v =>
          cases v with
          | num ts => cases ts with
            | nan => simp [tsKeep, specKeep, getFieldE, getField, hl, jsGe]
            | int n => simp [tsKeep, specKeep, getFieldE, getField, hl]
          | null => simp [tsKeep, specKeep, getFieldE, getField, hl]
          | bool b => simp [tsKeep, specKeep, getFieldE, getField, hl]
          | str t => simp [tsKeep, specKeep, getFieldE, getField, hl]
          | arr es => simp [tsKeep, specKeep, getFieldE, getField, hl]
          | obj gs => simp [tsKeep, specKeep, getFieldE, getField, hl]

/-- When no element is `null`, the throwing filter completes and agrees
with the pure filter by the specification's keep-predicate. -/
theorem filterM_ok (s e : JsNum) (elems : List Json)
    (hnn : Json.null ∉ elems) :
    filterM (tsKeep s e) elems = Except.ok (elems.filter (specKeep s e)) := by
  induction elems with
  | nil => rfl
  | cons x xs ih =>
      have hx : x ≠ Json.null := by
        intro hx
        exact hnn (hx ▸ List.mem_cons_self x xs)
      have hxs : Json.null ∉ xs := fun h => hnn (List.mem_cons_of_mem x h)
      unfold filterM
      rw [tsKeep_eq_specKeep s e x hx, ih hxs]
      by_cases hk : specKeep s e x = true
      · simp [hk, List.filter_cons_of_pos]
      · have hk' : specKeep s e x = false := by
          cases hsk : specKeep s e x
          · rfl
          · exact absurd hsk hk
        rw [List.filter_cons_of_neg (by simp [hk'])]
        simp [hk']

/-- Counterexample to claim C4 as stated: at the array `[null]` with both
bounds set, the program's filter callback throws (`entry.timestamp_epoch_ms`
on `null` is a TypeError, caught as a 500 `error`/`raw` response) while
the claimed reference definition yields the empty array. -/
theorem filterByRange_null_diverges :
    filterByRange (fun _ => JsNum.int 0) (Json.arr [Json.null])
      (some "2021-01-01") (some "2021-12-31") = Except.error () ∧
    filterByRangeSpec (fun _ => JsNum.int 0) (Json.arr [Json.null])
      (some "2021-01-01") (some "2021-12-31") = Json.arr [] := by
  constructor
  · rfl
  · rfl

/-- Claim C4 as amended: provided no array element is `null` (otherwise
the code throws a TypeError that becomes a 500 `error`/`raw` response
instead of a filtered value), `filterByRange` returns the specification's
reference definition — value unchanged when not an array or a bound is
empty/absent, otherwise exactly the elements whose `timestamp_epoch_ms`
is a number within the inclusive epoch bounds are kept, every non-null
element lacking a numeric timestamp is dropped, and the kept elements
retain their original relative order (a sublist of the input). -/
theorem filterByRange_matches_reference (dateParse : String → JsNum)
    (value : Json) (startDate endDate : Option String)
    (hnn : Json.null ∉ elemsOf value) :
    filterByRange dateParse value startDate endDate =
      Except.ok (filterByRangeSpec dateParse value startDate endDate) ∧
    (elemsOf (filterByRangeSpec dateParse value startDate endDate)).Sublist
      (elemsOf value) := by
  constructor
  · cases value with
    | arr es =>
        by_cases hs : truthyS startDate = true
        · by_cases he : truthyS endDate = true
          · simp only [filterByRange, filterByRangeSpec, isArray, elemsOf,
              hs, he, Bool.and_self, if_true, Bool.true_and]
            simp only [Bool.true_eq_false, false_or, or_self, if_false]
            rw [filterM_ok _ _ es (by simpa [elemsOf] using hnn)]
          · simp [filterByRange, filterByRangeSpec, isArray, elemsOf, hs, he]
        · simp [filterByRange, filterByRangeSpec, isArray, elemsOf, hs]
    | null => rfl
    | bool b => simp [filterByRange, filterByRangeSpec, isArray]
    | num v => simp [filterByRange, filterByRangeSpec, isArray]
    | str s => simp [filterByRange, filterByRangeSpec, isArray]
    | obj fs => simp [filterByRange, filterByRangeSpec, isArray]
  · cases value with
    | arr es =>
        by_cases hb : (isArray (Json.arr es) = false ∨
            truthyS startDate = false ∨ truthyS endDate = false)
        · simp only [filterByRangeSpec, if_pos hb, elemsOf]
          exact List.Sublist.refl es
        · simp only [filterByRangeSpec, if_neg hb, elemsOf]
          exact List.filter_sublist es
    | null => exact List.Sublist.refl _
    | bool b => simp [filterByRangeSpec, isArray, elemsOf]
    | num v => simp [filterByRangeSpec, isArray, elemsOf]
    | str s => simp [filterByRangeSpec, isArray, elemsOf]
    | obj fs => simp [filterByRangeSpec, isArray, elemsOf]

/-- Witness for the amended claim C4 at a concrete null-free input: one
element in range is kept, one without a numeric timestamp is dropped. -/
theorem filterByRange_matches_reference_witness :
    Json.null ∉ elemsOf (Json.arr
      [Json.obj [("timestamp_epoch_ms", Json.num (JsNum.int 200))],
       Json.obj [("name", Json.str "no-timestamp")]]) ∧
    filterByRange (fun s => if s = "t150" then JsNum.int 150 else JsNum.int 250)
      (Json.arr [Json.obj [("timestamp_epoch_ms", Json.num (JsNum.int 200))],
        Json.obj [("name", Json.str "no-timestamp")]])
      (some "t150") (some "t250") =
      Except.ok (filterByRangeSpec
        (fun s => if s = "t150" then JsNum.int 150 else JsNum.int 250)
        (Json.arr [Json.obj [("timestamp_epoch_ms", Json.num (JsNum.int 200))],
          Json.obj [("name", Json.str "no-timestamp")]])
        (some "t150") (some "t250")) :=
  ⟨by simp [elemsOf],
    (filterByRange_matches_reference
      (fun s => if s = "t150" then JsNum.int 150 else JsNum.int 250)
      (Json.arr [Json.obj [("timestamp_epoch_ms", Json.num (JsNum.int 200))],
        Json.obj [("name", Json.str "no-timestamp")]])
      (some "t150") (some "t250") (by simp [elemsOf])).1⟩

/-- Counterexample to claim C5 as stated: with an unparsable bound and an
array containing `null`, the program does not return the empty array —
the callback throws before any comparison and the handler answers 500
`error`/`raw`. -/
theorem filterByRange_invalid_bound_null_throws :
    filterByRange (fun _ => JsNum.nan) (Json.arr [Json.null])
      (some "not-a-date") (some "2021-01-01") = Except.error () ∧
    filterByRange (fun _ => JsNum.nan) (Json.arr [Json.null])
      (some "not-a-date") (some "2021-01-01") ≠
      Except.ok (Json.arr []) := by
  refine ⟨rfl, ?_⟩
  intro h
  exact Except.noConfusion h

/-- Claim C5 as amended: with an array value free of `null` elements, both
bounds truthy, and at least one bound parsing to NaN, every element fails
the numeric comparisons and the result is the empty array — filtering is
active, not disabled (an array containing `null` instead throws into the
500 `error`/`raw` path). -/
theorem filterByRange_invalid_bound_empty (dateParse : String → JsNum)
    (elems : List Json) (startDate endDate : Option String)
    (hnn : Json.null ∉ elems)
    (hs : truthyS startDate = true) (he : truthyS endDate = true)
    (hnan : dateParse (jsShow startDate) = JsNum.nan ∨
      dateParse (jsShow endDate) = JsNum.nan) :
    filterByRange dateParse (Json.arr elems) startDate endDate =
      Except.ok (Json.arr []) := by
  simp only [filterByRange, hs, he, Bool.and_self, if_true]
  rw [filterM_ok _ _ elems hnn]
  have hnil : elems.filter (specKeep (dateParse (jsShow startDate))
      (dateParse (jsShow endDate))) = [] := by
    refine List.filter_eq_nil_iff.mpr ?_
    intro a _
    unfold specKeep
    cases h : getField a "timestamp_epoch_ms" with
    | none => simp
    | some v =>
        cases v with
        | num ts =>
            rcases hnan with hn | hn
            · cases ts with
              | nan => simp
              | int n => simp [hn, jsGe]
            · cases ts with
              | nan => simp
              | int n => simp [hn, jsLe, jsGe]
        | null => simp
        | bool b => simp
        | str s => simp
        | arr es => simp
        | obj fs => simp
  rw [hnil]

/-- Witness for the amended claim C5 at a concrete input: an unparsable
start bound silently drops a null-free element whose timestamp would
otherwise lie in range. -/
theorem filterByRange_invalid_bound_empty_witness :
    Json.null ∉
      [Json.obj [("timestamp_epoch_ms", Json.num (JsNum.int 100))]] ∧
    truthyS (some "not-a-date") = true ∧ truthyS (some "2021-01-01") = true ∧
    filterByRange (fun _ => JsNum.nan)
      (Json.arr [Json.obj [("timestamp_epoch_ms", Json.num (JsNum.int 100))]])
      (some "not-a-date") (some "2021-01-01") = Except.ok (Json.arr []) :=
  ⟨by simp, by decide, by decide,
    filterByRange_invalid_bound_empty (fun _ => JsNum.nan)
      [Json.obj [("timestamp_epoch_ms", Json.num (JsNum.int 100))]]
      (some "not-a-date") (some "2021-01-01") (by simp) (by decide)
      (by decide) (Or.inl rfl)⟩

/-- Claim C2: a validated `execute_query` issues exactly one outbound
request; it is an HTTPS GET to `https://<fqdn><parameters>` with the path
taken verbatim, the `Authorization` header is `Basic` followed by the
base64 of `user_mail:user_password`, and the `Accept` header is the given
`mimeType`, falling back to `application/json`. -/
theorem execute_issues_single_get (jsonParse : String → Option Json)
    (dateParse : String → JsNum) (b : ExecBody) (saveErr : Option String)
    (outcome : TransportOutcome) (hv : validExec b = true) :
    (executeQueryHandler jsonParse dateParse b saveErr outcome).requests =
      [buildOptions (jsShow b.fqdn) (jsShow b.parameters) (jsShow b.user_mail)
        (jsShow b.user_password) b.mimeType b.timeout] ∧
    ∀ o ∈ (executeQueryHandler jsonParse dateParse b saveErr outcome).requests,
      o.method = "GET" ∧
      o.path = jsShow b.parameters ∧
      targetUrl o = "https://" ++ jsShow b.fqdn ++ jsShow b.parameters ∧
      o.authorization = "Basic " ++ base64Encode
        (utf8Bytes (jsShow b.user_mail ++ ":" ++ jsShow b.user_password)) ∧
      o.accept = (if truthyS b.mimeType then jsShow b.mimeType
        else "application/json") := by
  have hreq : (executeQueryHandler jsonParse dateParse b saveErr
      outcome).requests =
      [buildOptions (jsShow b.fqdn) (jsShow b.parameters) (jsShow b.user_mail)
        (jsShow b.user_password) b.mimeType b.timeout] := by
    cases outcome with
    | timeout => simp [executeQueryHandler, hv]
    | error msg => simp [executeQueryHandler, hv]
    | success sc hj chunks =>
        cases hp : jsonParse (String.join chunks) with
        | none => simp [executeQueryHandler, hv, hp]
        | some parsed =>
            cases hfil : filterByRange dateParse parsed b.start_date
                b.end_date with
            | ok filtered => simp [executeQueryHandler, hv, hp, hfil]
            | error e => simp [executeQueryHandler, hv, hp, hfil]
  refine ⟨hreq, ?_⟩
  intro o ho
  rw [hreq] at ho
  simp only [List.mem_singleton] at ho
  subst ho
  exact ⟨rfl, rfl, rfl, rfl, rfl⟩

/-- Witness for claim C2 at a concrete validated body with all three
transport outcomes irrelevant: the options carry the expected method,
target, credentials and media type. -/
theorem execute_issues_single_get_witness :
    validExec ⟨some "example.com", some "alice@example.com", some "secret",
      none, none, some "/api/status?x=1", none, some "text/csv",
      TimeoutField.absent⟩ = true ∧
    (executeQueryHandler (fun _ => none) (fun _ => JsNum.nan)
      ⟨some "example.com", some "alice@example.com", some "secret", none,
        none, some "/api/status?x=1", none, some "text/csv",
        TimeoutField.absent⟩ none TransportOutcome.timeout).requests =
      [buildOptions "example.com" "/api/status?x=1" "alice@example.com"
        "secret" (some "text/csv") TimeoutField.absent] :=
  ⟨by decide,
    (execute_issues_single_get (fun _ => none) (fun _ => JsNum.nan)
      ⟨some "example.com", some "alice@example.com", some "secret", none,
        none, some "/api/status?x=1", none, some "text/csv",
        TimeoutField.absent⟩ none TransportOutcome.timeout (by decide)).1⟩

/-- Claim C3: the outbound request carries a deadline of the supplied
number of seconds (in milliseconds), 30 s when no timeout is given; the
timeout outcome destroys the in-flight request and answers `408`, while a
plain transport error answers `500`. -/
theorem execute_timeout_semantics (jsonParse : String → Option Json)
    (dateParse : String → JsNum) (b : ExecBody) (saveErr : Option String)
    (hv : validExec b = true) :
    (∀ o ∈ (executeQueryHandler jsonParse dateParse b saveErr
        TransportOutcome.timeout).requests,
      o.timeoutMs = timeoutMsOf b.timeout) ∧
    timeoutMsOf TimeoutField.absent = JsNum.int 30000 ∧
    (∀ n : Int, n ≠ 0 →
      timeoutMsOf (TimeoutField.num n) = JsNum.int (n * 1000)) ∧
    (executeQueryHandler jsonParse dateParse b saveErr
      TransportOutcome.timeout).aborted = true ∧
    (executeQueryHandler jsonParse dateParse b saveErr
      TransportOutcome.timeout).response =
      ⟨408, Json.obj [("error", Json.str "Request timeout")]⟩ ∧
    (∀ msg, (executeQueryHandler jsonParse dateParse b saveErr
        (TransportOutcome.error msg)).response =
      ⟨500, Json.obj [("error", Json.str msg)]⟩ ∧
      (executeQueryHandler jsonParse dateParse b saveErr
        (TransportOutcome.error msg)).aborted = false) := by
  refine ⟨?_, rfl, ?_, ?_, ?_, ?_⟩
  · intro o ho
    simp only [executeQueryHandler, hv, if_true] at ho
    simp only [List.mem_singleton] at ho
    subst ho
    rfl
  · intro n hn
    simp [timeoutMsOf, timeoutTruthy, timeoutNum, jsMul, hn]
  · simp [executeQueryHandler, hv]
  · simp [executeQueryHandler, hv]
  · intro msg
    constructor
    · simp [executeQueryHandler, hv]
    · simp [executeQueryHandler, hv]

/-- Witness for claim C3: with `timeout = 1` the deadline is 1000 ms, the
timeout outcome aborts and answers 408, a transport error answers 500. -/
theorem execute_timeout_semantics_witness :
    validExec ⟨some "unreachable.example", some "m@x.y", some "pw", none,
      none, some "/p", none, none, TimeoutField.num 1⟩ = true ∧
    (∀ o ∈ (executeQueryHandler (fun _ => none) (fun _ => JsNum.nan)
        ⟨some "unreachable.example", some "m@x.y", some "pw", none, none,
          some "/p", none, none, TimeoutField.num 1⟩ none
        TransportOutcome.timeout).requests,
      o.timeoutMs = timeoutMsOf (TimeoutField.num 1)) ∧
    (executeQueryHandler (fun _ => none) (fun _ => JsNum.nan)
      ⟨some "unreachable.example", some "m@x.y", some "pw", none, none,
        some "/p", none, none, TimeoutField.num 1⟩ none
      TransportOutcome.timeout).response.status = 408 :=
  ⟨by decide,
    (execute_timeout_semantics (fun _ => none) (fun _ => JsNum.nan)
      ⟨some "unreachable.example", some "m@x.y", some "pw", none, none,
        some "/p", none, none, TimeoutField.num 1⟩ none (by decide)).1,
    by
      have h := (execute_timeout_semantics (fun _ => none)
        (fun _ => JsNum.nan)
        ⟨some "unreachable.example", some "m@x.y", some "pw", none, none,
          some "/p", none, none, TimeoutField.num 1⟩ none (by decide)).2.2.2.2.1
      rw [h]⟩

/-- Claim C10: a falsy `timeout` (absent, `0`, or the empty string) yields
the 30-second default deadline of 30000 ms — identical to omitting the
field — while a truthy numeric timeout yields `n * 1000` ms. -/
theorem timeout_falsy_defaults (f p m pw : String) (mt : Option String)
    (t : TimeoutField) (ht : timeoutTruthy t = false) :
    (buildOptions f p m pw mt t).timeoutMs = JsNum.int 30000 ∧
    (buildOptions f p m pw mt t).timeoutMs =
      (buildOptions f p m pw mt TimeoutField.absent).timeoutMs ∧
    timeoutTruthy (TimeoutField.num 0) = false ∧
    timeoutTruthy (TimeoutField.str "") = false ∧
    (∀ n : Int, n ≠ 0 →
      (buildOptions f p m pw mt (TimeoutField.num n)).timeoutMs =
        JsNum.int (n * 1000)) := by
  refine ⟨?_, ?_, by decide, by decide, ?_⟩
  · simp [buildOptions, timeoutMsOf, ht]
  · have h1 : (buildOptions f p m pw mt t).timeoutMs = JsNum.int 30000 := by
      simp [buildOptions, timeoutMsOf, ht]
    rw [h1]
    rfl
  · intro n hn
    simp [buildOptions, timeoutMsOf, timeoutTruthy, timeoutNum, jsMul, hn]

/-- Witness for claim C10: `timeout = 0` gives the same 30000 ms deadline
as an absent timeout. -/
theorem timeout_falsy_defaults_witness :
    timeoutTruthy (TimeoutField.num 0) = false ∧
    (buildOptions "example.com" "/p" "m@x.y" "pw" none
      (TimeoutField.num 0)).timeoutMs = JsNum.int 30000 :=
  ⟨by decide,
    (timeout_falsy_defaults "example.com" "/p" "m@x.y" "pw" none
      (TimeoutField.num 0) (by decide)).1⟩

/-- Claim C9: when the upstream body is not valid JSON, the handler answers
500 with a JSON body carrying both the parse-failure message and the raw
accumulated body. -/
theorem execute_parse_error_response (jsonParse : String → Option Json)
    (dateParse : String → JsNum) (b : ExecBody) (saveErr : Option String)
    (sc : Nat) (hj : String) (chunks : List String)
    (hv : validExec b = true)
    (hp : jsonParse (String.join chunks) = none) :
    (executeQueryHandler jsonParse dateParse b saveErr
      (TransportOutcome.success sc hj chunks)).response =
      ⟨500, Json.obj [("error", Json.str "Failed to parse API response"),
        ("raw", Json.str (String.join chunks))]⟩ := by
  simp [executeQueryHandler, hv, hp]

/-- Witness for claim C9: a plain-text body produces the 500
`error`/`raw` envelope with the body attached verbatim. -/
theorem execute_parse_error_response_witness :
    validExec ⟨some "example.com", some "m@x.y", some "pw", none, none,
      some "/p", none, none, TimeoutField.absent⟩ = true ∧
    ((fun _ => (none : Option Json)) (String.join ["<html>oops"])) = none ∧
    (executeQueryHandler (fun _ => none) (fun _ => JsNum.nan)
      ⟨some "example.com", some "m@x.y", some "pw", none, none, some "/p",
        none, none, TimeoutField.absent⟩ none
      (TransportOutcome.success 200 "\x7b\x7d" ["<html>oops"])).response =
      ⟨500, Json.obj [("error", Json.str "Failed to parse API response"),
        ("raw", Json.str "<html>oops")]⟩ :=
  ⟨by decide, rfl, by
    have h := execute_parse_error_response (fun _ => none)
      (fun _ => JsNum.nan)
      ⟨some "example.com", some "m@x.y", some "pw", none, none, some "/p",
        none, none, TimeoutField.absent⟩ none 200 "\x7b\x7d" ["<html>oops"]
      (by decide) rfl
    simpa using h⟩

/-- Claim C8: the pre-execution upsert is best-effort — a store failure is
logged and swallowed: the response, the outbound requests and the abort
flag are identical to the failure-free run, and the failure surfaces only
in the log. -/
theorem execute_save_best_effort (jsonParse : String → Option Json)
    (dateParse : String → JsNum) (b : ExecBody)
    (outcome : TransportOutcome) (m : String)
    (hv : validExec b = true) :
    (executeQueryHandler jsonParse dateParse b (some m) outcome).response =
      (executeQueryHandler jsonParse dateParse b none outcome).response ∧
    (executeQueryHandler jsonParse dateParse b (some m) outcome).requests =
      (executeQueryHandler jsonParse dateParse b none outcome).requests ∧
    (executeQueryHandler jsonParse dateParse b (some m) outcome).aborted =
      (executeQueryHandler jsonParse dateParse b none outcome).aborted ∧
    ("Database save error before execution for FQDN " ++ jsShow b.fqdn ++
        ": " ++ m) ∈
      (executeQueryHandler jsonParse dateParse b (some m) outcome).logs := by
  cases outcome with
  | timeout =>
      refine ⟨by simp [executeQueryHandler, hv], by simp [executeQueryHandler, hv],
        by simp [executeQueryHandler, hv], ?_⟩
      simp [executeQueryHandler, hv]
  | error msg =>
      refine ⟨by simp [executeQueryHandler, hv], by simp [executeQueryHandler, hv],
        by simp [executeQueryHandler, hv], ?_⟩
      simp [executeQueryHandler, hv]
  | success sc hj chunks =>
      cases hp : jsonParse (String.join chunks) with
      | none =>
          refine ⟨by simp [executeQueryHandler, hv, hp],
            by simp [executeQueryHandler, hv, hp],
            by simp [executeQueryHandler, hv, hp], ?_⟩
          simp [executeQueryHandler, hv, hp]
      | some parsed =>
          cases hfil : filterByRange dateParse parsed b.start_date
              b.end_date with
          | ok filtered =>
              refine ⟨by simp [executeQueryHandler, hv, hp, hfil],
                by simp [executeQueryHandler, hv, hp, hfil],
                by simp [executeQueryHandler, hv, hp, hfil], ?_⟩
              simp [executeQueryHandler, hv, hp, hfil]
          | error e =>
              refine ⟨by simp [executeQueryHandler, hv, hp, hfil],
                by simp [executeQueryHandler, hv, hp, hfil],
                by simp [executeQueryHandler, hv, hp, hfil], ?_⟩
              simp [executeQueryHandler, hv, hp, hfil]

/-- Witness for claim C8: a concrete store failure leaves the 408 timeout
response untouched. -/
theorem execute_save_best_effort_witness :
    validExec ⟨some "example.com", some "m@x.y", some "pw", none, none,
      some "/p", none, none, TimeoutField.absent⟩ = true ∧
    (executeQueryHandler (fun _ => none) (fun _ => JsNum.nan)
      ⟨some "example.com", some "m@x.y", some "pw", none, none, some "/p",
        none, none, TimeoutField.absent⟩
      (some "SQLITE_BUSY: database is locked")
      TransportOutcome.timeout).response =
    (executeQueryHandler (fun _ => none) (fun _ => JsNum.nan)
      ⟨some "example.com", some "m@x.y", some "pw", none, none, some "/p",
        none, none, TimeoutField.absent⟩ none
      TransportOutcome.timeout).response :=
  ⟨by decide,
    (execute_save_best_effort (fun _ => none) (fun _ => JsNum.nan)
      ⟨some "example.com", some "m@x.y", some "pw", none, none, some "/p",
        none, none, TimeoutField.absent⟩ TransportOutcome.timeout
      "SQLITE_BUSY: database is locked" (by decide)).1⟩

/-- Claim C1 is violated by the code: `server.js:199` logs
`JSON.stringify(options)` before the redacted copy is built at
`server.js:201`-`205`, so on every validated request the log receives the
unredacted `Authorization` header — here, the Basic header derived from
`alice@example.com:secret` appears verbatim in a log line. -/
theorem execute_logs_unredacted_credentials :
    ((executeQueryHandler (fun _ => none) (fun _ => JsNum.nan)
      ⟨some "example.com", some "alice@example.com", some "secret", none,
        none, some "/api/status", none, none, TimeoutField.absent⟩ none
      (TransportOutcome.error "connect ECONNREFUSED")).logs.any fun line =>
        containsStr line (basicAuthValue "alice@example.com" "secret")) =
      true ∧
    basicAuthValue "alice@example.com" "secret" =
      "Basic YWxpY2VAZXhhbXBsZS5jb206c2VjcmV0" := by
  constructor
  · decide
  · decide

/-- The `DO UPDATE` branch keeps the key column. -/
theorem overwriteRow_fqdn (b : SaveBody) (now : Nat) (r : Row) :
    (overwriteRow b now r).fqdn = r.fqdn := rfl

/-- The keys of the table after an upsert: unchanged when the key was
present, the new key appended when it was absent. -/
theorem upsert_keys (rows : List Row) (b : SaveBody) (now : Nat) :
    (upsertRows rows b now).map Row.fqdn =
      if rows.any (fun r => r.fqdn = jsShow b.fqdn) then rows.map Row.fqdn
      else rows.map Row.fqdn ++ [jsShow b.fqdn] := by
  unfold upsertRows
  by_cases h : rows.any (fun r => r.fqdn = jsShow b.fqdn) = true
  · rw [if_pos h, if_pos h, List.map_map]
    refine List.map_congr_left ?_
    intro r _
    by_cases hr : r.fqdn = jsShow b.fqdn <;> simp [hr, overwriteRow]
  · rw [if_neg h, if_neg h]
    simp [newRow]

/-- The upserted key is present afterwards. -/
theorem key_mem_upsert (rows : List Row) (b : SaveBody) (now : Nat) :
    jsShow b.fqdn ∈ (upsertRows rows b now).map Row.fqdn := by
  rw [upsert_keys]
  by_cases h : rows.any (fun r => r.fqdn = jsShow b.fqdn) = true
  · rw [if_pos h]
    obtain ⟨r, hr, hk⟩ := List.any_eq_true.mp h
    simp only [decide_eq_true_eq] at hk
    exact List.mem_map.mpr ⟨r, hr, hk⟩
  · rw [if_neg h]
    simp

/-- Upserting preserves key uniqueness. -/
theorem upsert_keys_nodup (rows : List Row) (b : SaveBody) (now : Nat)
    (hw : (rows.map Row.fqdn).Nodup) :
    ((upsertRows rows b now).map Row.fqdn).Nodup := by
  rw [upsert_keys]
  by_cases h : rows.any (fun r => r.fqdn = jsShow b.fqdn) = true
  · rwa [if_pos h]
  · rw [if_neg h]
    have hall : ∀ r ∈ rows, ¬r.fqdn = jsShow b.fqdn := by
      intro r hr
      have := List.any_eq_false.mp (Bool.not_eq_true _ ▸ h) r hr
      simpa using this
    refine List.nodup_append.mpr ⟨hw, List.nodup_singleton _, ?_⟩
    intro k hk hk1
    simp only [List.mem_singleton] at hk1
    obtain ⟨r, hr, hk2⟩ := List.mem_map.mp hk
    exact hall r hr (by rw [hk2, hk1])

/-- Every row carrying the upserted key after an upsert holds exactly the
incoming field values, with `last_updated` refreshed. -/
theorem upsert_fields (rows : List Row) (b : SaveBody) (now : Nat) (r : Row)
    (hr : r ∈ upsertRows rows b now) (hk : r.fqdn = jsShow b.fqdn) :
    r.user_mail = b.user_mail ∧ r.user_password = b.user_password ∧
    r.start_date = b.start_date ∧ r.end_date = b.end_date ∧
    r.parameters = b.parameters ∧ r.comments = b.comments ∧
    r.last_updated = now := by
  unfold upsertRows at hr
  by_cases h : rows.any (fun x => x.fqdn = jsShow b.fqdn) = true
  · rw [if_pos h] at hr
    obtain ⟨r0, hr0, heq⟩ := List.mem_map.mp hr
    by_cases h0 : r0.fqdn = jsShow b.fqdn
    · rw [if_pos h0] at heq
      rw [← heq]
      simp [overwriteRow]
    · rw [if_neg h0] at heq
      rw [← heq] at hk
      exact absurd hk h0
  · rw [if_neg h] at hr
    rcases List.mem_append.mp hr with h1 | h1
    · have := List.any_eq_false.mp (Bool.not_eq_true _ ▸ h) r h1
      simp only [decide_eq_true_eq] at this
      exact absurd hk this
    · simp only [List.mem_singleton] at h1
      rw [h1]
      simp [newRow]

/-- In a table with pairwise-distinct keys a present key matches exactly
one row. -/
theorem filter_key_length_one (rows : List Row) (k : String)
    (hw : (rows.map Row.fqdn).Nodup) (hk : k ∈ rows.map Row.fqdn) :
    (rows.filter (fun r => r.fqdn = k)).length = 1 := by
  induction rows with
  | nil => simp at hk
  | cons r rs ih =>
      simp only [List.map_cons, List.nodup_cons] at hw
      obtain ⟨hnot, hw'⟩ := hw
      by_cases h : r.fqdn = k
      · rw [List.filter_cons_of_pos (by simp [h])]
        have hnil : rs.filter (fun x => x.fqdn = k) = [] := by
          refine List.filter_eq_nil_iff.mpr ?_
          intro x hx
          simp only [decide_eq_true_eq]
          intro hxk
          refine hnot ?_
          rw [h, ← hxk]
          exact List.mem_map.mpr ⟨x, hx, rfl⟩
        simp [hnil]
      · rw [List.filter_cons_of_neg (by simp [h])]
        refine ih hw' ?_
        rcases List.mem_cons.mp hk with h1 | h1
        · exact absurd h1.symm h
        · exact h1

/-- Claim C6: `save_query_data` inserts a fresh row when the key is absent,
otherwise overwrites every field but `created_at` and refreshes
`last_updated`; two saves under the same key leave exactly one matching
row carrying the second save's values with `last_updated` at least the
first timestamp; a falsy `fqdn` is rejected with 400 and the table is
untouched. -/
theorem save_upsert_semantics (rows : List Row) (b1 b2 : SaveBody)
    (t1 t2 : Nat) (hw : (rows.map Row.fqdn).Nodup)
    (hf : truthyS b1.fqdn = true) (hsame : b2.fqdn = b1.fqdn)
    (ht : t1 ≤ t2) :
    ((∀ r ∈ rows, r.fqdn ≠ jsShow b1.fqdn) →
      (saveQueryData rows b1 t1 none).2 = rows ++ [newRow b1 t1]) ∧
    (∀ r ∈ rows, r.fqdn = jsShow b1.fqdn →
      overwriteRow b1 t1 r ∈ (saveQueryData rows b1 t1 none).2 ∧
      (overwriteRow b1 t1 r).created_at = r.created_at ∧
      (overwriteRow b1 t1 r).last_updated = t1) ∧
    (((saveQueryData (saveQueryData rows b1 t1 none).2 b2 t2 none).2.filter
        (fun r => r.fqdn = jsShow b1.fqdn)).length = 1 ∧
      ∀ r ∈ (saveQueryData (saveQueryData rows b1 t1 none).2 b2 t2 none).2,
        r.fqdn = jsShow b1.fqdn →
          r.user_mail = b2.user_mail ∧ r.user_password = b2.user_password ∧
          r.start_date = b2.start_date ∧ r.end_date = b2.end_date ∧
          r.parameters = b2.parameters ∧ r.comments = b2.comments ∧
          r.last_updated = t2 ∧ t1 ≤ r.last_updated) ∧
    (∀ b : SaveBody, truthyS b.fqdn = false →
      saveQueryData rows b t1 none =
        (⟨400, Json.obj [("error", Json.str "FQDN is required")]⟩, rows)) := by
  have hf2 : truthyS b2.fqdn = true := by rw [hsame]; exact hf
  have hkey : jsShow b2.fqdn = jsShow b1.fqdn := by rw [hsame]
  have hsave1 : (saveQueryData rows b1 t1 none).2 = upsertRows rows b1 t1 := by
    simp [saveQueryData, hf]
  have hsave2 : (saveQueryData (saveQueryData rows b1 t1 none).2 b2 t2 none).2 =
      upsertRows (upsertRows rows b1 t1) b2 t2 := by
    simp [saveQueryData, hf, hf2]
  refine ⟨?_, ?_, ⟨?_, ?_⟩, ?_⟩
  · intro hab
    rw [hsave1]
    unfold upsertRows
    have hany : rows.any (fun r => r.fqdn = jsShow b1.fqdn) = false := by
      refine List.any_eq_false.mpr ?_
      intro x hx
      simpa using hab x hx
    simp [hany]
  · intro r hr hkr
    refine ⟨?_, rfl, rfl⟩
    rw [hsave1]
    unfold upsertRows
    rw [if_pos (List.any_eq_true.mpr ⟨r, hr, by simp [hkr]⟩)]
    exact List.mem_map.mpr ⟨r, hr, by rw [if_pos hkr]⟩
  · rw [hsave2, ← hkey]
    refine filter_key_length_one _ _ ?_ ?_
    · exact upsert_keys_nodup _ _ _ (upsert_keys_nodup _ _ _ hw)
    · exact key_mem_upsert _ _ _
  · intro r hr hkr
    rw [hsave2] at hr
    have hfields := upsert_fields _ b2 t2 r hr (by rw [hkey]; exact hkr)
    refine ⟨hfields.1, hfields.2.1, hfields.2.2.1, hfields.2.2.2.1,
      hfields.2.2.2.2.1, hfields.2.2.2.2.2.1, hfields.2.2.2.2.2.2, ?_⟩
    rw [hfields.2.2.2.2.2.2]
    exact ht
  · intro b hb
    simp [saveQueryData, hb]

/-- Witness for claim C6: saving `a.com` twice (comments `first`, then
`second`) into an empty table leaves exactly one matching row. -/
theorem save_upsert_semantics_witness :
    (([] : List Row).map Row.fqdn).Nodup ∧
    truthyS (some "a.com") = true ∧ (10 : Nat) ≤ 20 ∧
    ((saveQueryData (saveQueryData []
        ⟨some "a.com", some "m@x.y", some "pw", none, none, some "/p",
          some "first"⟩ 10 none).2
        ⟨some "a.com", some "m@x.y", some "pw", none, none, some "/p",
          some "second"⟩ 20 none).2.filter
      (fun r => r.fqdn = jsShow (some "a.com"))).length = 1 :=
  ⟨by simp, by decide, by decide,
    (save_upsert_semantics []
      ⟨some "a.com", some "m@x.y", some "pw", none, none, some "/p",
        some "first"⟩
      ⟨some "a.com", some "m@x.y", some "pw", none, none, some "/p",
        some "second"⟩ 10 20 (by simp) (by decide) rfl (by decide)).2.2.1.1⟩

/-- Claim C7: deleting an unknown key answers 404 and leaves the table
unchanged; deleting a present key answers 200, removes every matching row,
and a subsequent `getEntry` on that key returns the zero-valued stub — the
same response any never-stored key gets. -/
theorem delete_semantics (rows : List Row) (f : String) (hf : f ≠ "") :
    ((∀ r ∈ rows, r.fqdn ≠ f) →
      deleteQueryData rows f =
        (⟨404, Json.obj [("error", Json.str "FQDN not found")]⟩, rows)) ∧
    (∀ r0 ∈ rows, r0.fqdn = f →
      (deleteQueryData rows f).1 =
        ⟨200, Json.obj [("message",
          Json.str "FQDN entry deleted successfully")]⟩ ∧
      (∀ r ∈ (deleteQueryData rows f).2, r.fqdn ≠ f) ∧
      getQueryData (deleteQueryData rows f).2 (some f) =
        ⟨200, stubJson f⟩) ∧
    (∀ rows2 : List Row, (∀ r ∈ rows2, r.fqdn ≠ f) →
      getQueryData rows2 (some f) = ⟨200, stubJson f⟩) := by
  have hstub : ∀ rows2 : List Row, (∀ r ∈ rows2, r.fqdn ≠ f) →
      getQueryData rows2 (some f) = ⟨200, stubJson f⟩ := by
    intro rows2 h2
    have hfind : rows2.find? (fun r => r.fqdn = f) = none := by
      refine List.find?_eq_none.mpr ?_
      intro x hx
      simp only [decide_eq_true_eq]
      exact h2 x hx
    simp [getQueryData, truthyS, hf, jsShow, hfind]
  refine ⟨?_, ?_, hstub⟩
  · intro hab
    have hrem : rows.filter (fun r => r.fqdn ≠ f) = rows := by
      refine List.filter_eq_self.mpr ?_
      intro r hr
      simpa using hab r hr
    simp only [deleteQueryData]
    rw [hrem]
    simp
  · intro r0 hr0 hk0
    have hlt : (rows.filter (fun r => r.fqdn ≠ f)).length < rows.length := by
      refine List.length_filter_lt_length_iff_exists.mpr ⟨r0, hr0, ?_⟩
      simp [hk0]
    have hch : rows.length - (rows.filter (fun r => r.fqdn ≠ f)).length ≠ 0 :=
      Nat.sub_ne_zero_of_lt hlt
    have hdel : deleteQueryData rows f =
        (⟨200, Json.obj [("message",
          Json.str "FQDN entry deleted successfully")]⟩,
         rows.filter (fun r => r.fqdn ≠ f)) := by
      simp only [deleteQueryData]
      rw [if_neg hch]
    refine ⟨by rw [hdel], ?_, ?_⟩
    · intro r hr
      rw [hdel] at hr
      have := (List.mem_filter.mp hr).2
      simpa using this
    · rw [hdel]
      refine hstub _ ?_
      intro r hr
      have := (List.mem_filter.mp hr).2
      simpa using this

/-- Witness for claim C7: deleting the only row for `a.com` yields 200 and
the follow-up lookup returns the zero-valued stub. -/
theorem delete_semantics_witness :
    ("a.com" : String) ≠ "" ∧
    (⟨"a.com", some "m@x.y", some "pw", none, none, some "/p", some "c",
      5, 7⟩ : Row) ∈ [(⟨"a.com", some "m@x.y", some "pw", none, none,
      some "/p", some "c", 5, 7⟩ : Row)] ∧
    getQueryData (deleteQueryData [(⟨"a.com", some "m@x.y", some "pw",
      none, none, some "/p", some "c", 5, 7⟩ : Row)] "a.com").2
      (some "a.com") = ⟨200, stubJson "a.com"⟩ :=
  ⟨by decide, by simp,
    ((delete_semantics [(⟨"a.com", some "m@x.y", some "pw", none, none,
        some "/p", some "c", 5, 7⟩ : Row)] "a.com" (by decide)).2.1
      ⟨"a.com", some "m@x.y", some "pw", none, none, some "/p", some "c",
        5, 7⟩ (by simp) rfl).2.2⟩

end AUU
